import Mathlib

/- Verification development for the BBMP OFC scraping/cleaning pipeline (do.py).

   The pipeline is embedded shallowly:
   * JSON values are the inductive `Json`; the standard library call
     `json.loads` is an explicit function argument `loads : String → Option Json`
     (`none` models a raised exception).  A network `requests.post` call is an
     argument `post : Nat → Option String` (`none` models a raised exception).
   * Python exceptions are modelled with `Except String`; a caught exception
     corresponds to the handled branch, an uncaught one to `Except.error`
     propagating to the caller (so a stage whose result is `Except.error`
     writes no output file).
   * Numeric columns (`astype('float')` / `astype('int')`) are modelled as
     already-numeric `Rat` / `Int` fields.
   * `datetime.strptime(_, '%m/%d/%Y %I:%M:%S %p').isoformat()` is modelled
     from the format literal in do.py line 127 by `strptimeIso` below.  Note
     that do.py never imports `datetime`, so the call as written raises
     `NameError` at runtime; the model captures the intended library call. -/

namespace BbmpOfc

/-- JSON values as produced by json.loads.  Objects are association lists
    (json.loads keeps one binding per key). -/
inductive Json where
  | null : Json
  | bool (b : Bool) : Json
  | num (q : Rat) : Json
  | str (s : String) : Json
  | arr (xs : List Json) : Json
  | obj (fields : List (String × Json)) : Json

/-- Dict subscript `d[k]` returning `none` for a missing key (KeyError). -/
def lookupField (k : String) : List (String × Json) → Option Json
  | [] => none
  | (k0, v) :: rest => if k0 = k then some v else lookupField k rest

/-- True exactly on `Except.error`. -/
def isErr {ε α : Type} : Except ε α → Bool
  | Except.error _ => true
  | Except.ok _ => false

/-- True exactly on `Except.ok []`. -/
def isOkEmpty {ε α : Type} : Except ε (List α) → Bool
  | Except.ok [] => true
  | _ => false

/-- Row-wise effectful map: apply `f` to each element in order, propagating
    the first raised exception (models a Python for-loop over rows). -/
def mapME {α β : Type} (f : α → Except String β) : List α → Except String (List β)
  | [] => Except.ok []
  | x :: xs =>
    match f x with
    | Except.error e => Except.error e
    | Except.ok y =>
      match mapME f xs with
      | Except.error e => Except.error e
      | Except.ok ys => Except.ok (y :: ys)

/-- Output of `write_to_csv`: the header written by `DictWriter` plus the rows. -/
structure CsvFile (α : Type) where
  header : List String
  rows : List (List (String × α))

/-- Model of `write_to_csv` (do.py lines 23-30): the header is
    `list_of_dicts[0].keys()`, so an empty list raises IndexError. -/
def write_to_csv {α : Type} : List (List (String × α)) → Except String (CsvFile α)
  | [] => Except.error "IndexError: list index out of range"
  | r :: rest => Except.ok ⟨r.map Prod.fst, r :: rest⟩

/-- Dict subscript raising KeyError when the key is absent. -/
def getKey (fs : List (String × Json)) (k : String) : Except String Json :=
  match lookupField k fs with
  | some v => Except.ok v
  | none => Except.error ("KeyError: " ++ k)

/-- One output row of get_wards: the dict literal built at do.py lines 222-227,
    in insertion order. -/
def wardRow (i : Nat) (w : Json) : Except String (List (String × Json)) :=
  match w with
  | Json.obj fs => do
    let zn ← getKey fs "Zone_Name"
    let wi ← getKey fs "Ward_Id"
    let wn ← getKey fs "Ward_Name"
    Except.ok [("zone_id", Json.str (toString i)), ("zone_name", zn), ("ward_id", wi), ("ward_name", wn)]
  | _ => Except.error "TypeError: ward is not a dict"

/-- Per-zone body of get_wards (do.py lines 212-228): post the zone id, parse
    the doubly-encoded response, project every ward.  Nothing here is caught,
    so every failure propagates out of get_wards. -/
def fetchZone (post : Nat → Option String) (loads : String → Option Json) (i : Nat) :
    Except String (List (List (String × Json))) :=
  match post i with
  | none => Except.error "requests.post raised"
  | some content =>
    match loads content with
    | none => Except.error "ValueError: json.loads page.content"
    | some pageJson =>
      match pageJson with
      | Json.obj fs =>
        match lookupField "d" fs with
        | none => Except.error "KeyError: d"
        | some (Json.str s) =>
          match loads s with
          | none => Except.error "ValueError: json.loads of d"
          | some (Json.arr wards) => mapME (wardRow i) wards
          | some (Json.obj []) => Except.ok []
          | some (Json.str s2) => if s2 = "" then Except.ok [] else Except.error "TypeError: char ward subscript"
          | some _ => Except.error "TypeError: wards not iterable"
        | some _ => Except.error "TypeError: json.loads on non-string d"
      | _ => Except.error "TypeError: page_json subscript"

/-- Zone ids `range(1, 9)` (do.py line 211). -/
def zoneIds : List Nat := [1, 2, 3, 4, 5, 6, 7, 8]

/-- Loop of get_wards: returns the zone ids actually requested together with
    the accumulated rows; the first uncaught failure aborts the loop. -/
def get_wardsGo (post : Nat → Option String) (loads : String → Option Json) :
    List Nat → List (List (String × Json)) → List Nat × Except String (List (List (String × Json)))
  | [], acc => ([], Except.ok acc)
  | z :: zs, acc =>
    match fetchZone post loads z with
    | Except.error e => ([z], Except.error e)
    | Except.ok rows => ((z :: (get_wardsGo post loads zs (acc ++ rows)).1), (get_wardsGo post loads zs (acc ++ rows)).2)

/-- Model of get_wards (do.py lines 202-230): iterate zones 1..8, then write
    the ward list once at the end; the file exists only in the ok case. -/
def get_wards (post : Nat → Option String) (loads : String → Option Json) :
    List Nat × Except String (CsvFile Json) :=
  ((get_wardsGo post loads zoneIds []).1,
   match (get_wardsGo post loads zoneIds []).2 with
   | Except.error e => Except.error e
   | Except.ok rows => write_to_csv rows)

/-- One GeoJSON feature built by create_behemoth_geojson (do.py lines 254-273):
    the property values and parsed coordinates, all verbatim Json. -/
structure Feature where
  segment_id : Json
  street_name : Json
  application_id : Json
  application_submitted_date : Json
  application_email_id : Json
  ofc_cable_length : Json
  number_of_pits : Json
  authorized_person : Json
  segment_length : Json
  ward_name : Json
  zone_name : Json
  coordinates : Json

/-- Per-row feature construction (do.py lines 254-273).  Key lookups happen in
    the dict-literal order; none of the failures here is caught. -/
def processRow (loads : String → Option Json) (row : Json) : Except String Feature :=
  match row with
  | Json.obj fs => do
    let sid ← getKey fs "SegmentID"
    let sname ← getKey fs "StreetName"
    let appId ← getKey fs "ApplicationId"
    let appDate ← getKey fs "ApplicationsubmittedDate"
    let email ← getKey fs "EmailId"
    let ofcLen ← getKey fs "OFCcableLength"
    let pits ← getKey fs "NumberOfPits"
    let authP ← getKey fs "NameofAuthorizedPerson"
    let segLen ← getKey fs "SegmentLength"
    let wname ← getKey fs "WardName"
    let zname ← getKey fs "ZoneName"
    let shape ← getKey fs "Shape_Coordinates"
    match shape with
    | Json.str s =>
      match loads s with
      | some coords => Except.ok ⟨sid, sname, appId, appDate, email, ofcLen, pits, authP, segLen, wname, zname, coords⟩
      | none => Except.error "ValueError: json.loads Shape_Coordinates"
    | _ => Except.error "TypeError: json.loads on non-string coordinates"
  | _ => Except.error "TypeError: row subscript"

/-- The expression `json.loads(data['d'])` guarded by the bare `try` at
    do.py lines 247-251: any failure inside it (missing key, non-string value,
    parse failure) is caught and yields `none`. -/
def innerPayload (loads : String → Option Json) (data : Json) : Option Json :=
  match data with
  | Json.obj fs =>
    match lookupField "d" fs with
    | some (Json.str s) => loads s
    | _ => none
  | _ => none

/-- Processing of one raw per-ward file (do.py lines 243-275).
    `Except.ok none` is the caught/skipped branch (the `continue` after the
    diagnostic print); `Except.error` is an uncaught exception aborting the
    whole run.  The outer `json.loads(f.read())` at line 244 sits outside the
    `try`, so its failure is an `Except.error`. -/
def processFile (loads : String → Option Json) (content : String) :
    Except String (Option (List Feature)) :=
  match loads content with
  | none => Except.error "ValueError: json.loads of file body"
  | some data =>
    match innerPayload loads data with
    | none => Except.ok none
    | some (Json.arr rows) =>
      match mapME (processRow loads) rows with
      | Except.error e => Except.error e
      | Except.ok feats => Except.ok (some feats)
    | some (Json.obj []) => Except.ok (some [])
    | some (Json.str s) => if s = "" then Except.ok (some []) else Except.error "TypeError: char row subscript"
    | some _ => Except.error "TypeError: rows not iterable"

/-- The row list of a file whose inner envelope parsed to a JSON array. -/
def innerRows (loads : String → Option Json) (content : String) : Option (List Json) :=
  match loads content with
  | none => none
  | some data =>
    match innerPayload loads data with
    | some (Json.arr rows) => some rows
    | _ => none

/-- Diagnostic printed for a skipped file (do.py line 250). -/
def diagMsg (fullPath : String) : String := "Could not parse data for " ++ fullPath

/-- True exactly on the skipped-file outcome. -/
def isSkip : Except String (Option (List Feature)) → Bool
  | Except.ok none => true
  | _ => false

/-- Loop of create_behemoth_geojson over the raw files: collects the printed
    diagnostics and either all features or the first uncaught exception. -/
def cbGo (loads : String → Option Json) : List (String × String) → List String × Except String (List Feature)
  | [] => ([], Except.ok [])
  | (n, c) :: rest =>
    match processFile loads c with
    | Except.error e => ([], Except.error e)
    | Except.ok none => (diagMsg n :: (cbGo loads rest).1, (cbGo loads rest).2)
    | Except.ok (some feats) =>
      ((cbGo loads rest).1,
       match (cbGo loads rest).2 with
       | Except.error e => Except.error e
       | Except.ok l => Except.ok (feats ++ l))

/-- Model of create_behemoth_geojson (do.py lines 232-282) on a directory
    listing of (file name, file body).  The consolidated feature collection is
    serialized once at the end, so it exists only in the ok case; the first
    component is the list of diagnostics printed for skipped files. -/
def create_behemoth_geojson (loads : String → Option Json) (files : List (String × String)) :
    List String × Except String (List Feature) :=
  cbGo loads files

/-- Digit value of a decimal character. -/
def dVal (c : Char) : Nat := c.toNat - 48

/-- Decimal digit test. -/
def isDig (c : Char) : Bool := '0' ≤ c ∧ c ≤ '9'

/-- Literal character of the format string. -/
def pLit (c : Char) : List Char → Option (List Char)
  | x :: rest => if x = c then some rest else none
  | [] => none

/-- Whitespace run: a literal blank in the strptime format matches one or more
    whitespace characters. -/
def pWs : List Char → Option (List Char)
  | x :: rest => if x.isWhitespace then some (rest.dropWhile Char.isWhitespace) else none
  | [] => none

/-- Directive %m and %I: the pattern 1[0-2], else 0[1-9], else [1-9]. -/
def pMonth12 : List Char → Option (Nat × List Char)
  | '1' :: c :: rest => if '0' ≤ c ∧ c ≤ '2' then some (10 + dVal c, rest) else some (1, c :: rest)
  | ['1'] => some (1, [])
  | '0' :: c :: rest => if '1' ≤ c ∧ c ≤ '9' then some (dVal c, rest) else none
  | c :: rest => if '2' ≤ c ∧ c ≤ '9' then some (dVal c, rest) else none
  | [] => none

/-- Directive %d: the pattern 3[01], else [12][0-9], else 0[1-9], else [1-9]. -/
def pDay : List Char → Option (Nat × List Char)
  | '3' :: c :: rest => if c = '0' ∨ c = '1' then some (30 + dVal c, rest) else some (3, c :: rest)
  | ['3'] => some (3, [])
  | c :: c2 :: rest =>
    if ('1' ≤ c ∧ c ≤ '2') ∧ isDig c2 then some (10 * dVal c + dVal c2, rest)
    else if c = '0' then (if '1' ≤ c2 ∧ c2 ≤ '9' then some (dVal c2, rest) else none)
    else if '1' ≤ c ∧ c ≤ '9' then some (dVal c, c2 :: rest)
    else none
  | [c] => if '1' ≤ c ∧ c ≤ '9' then some (dVal c, []) else none
  | [] => none

/-- Directive %Y: exactly four decimal digits. -/
def pYear4 : List Char → Option (Nat × List Char)
  | a :: b :: c :: d :: rest =>
    if isDig a ∧ isDig b ∧ isDig c ∧ isDig d then
      some (1000 * dVal a + 100 * dVal b + 10 * dVal c + dVal d, rest)
    else none
  | _ => none

/-- Directive %M: the pattern [0-5][0-9], else [0-9]. -/
def pMin : List Char → Option (Nat × List Char)
  | c :: c2 :: rest =>
    if ('0' ≤ c ∧ c ≤ '5') ∧ isDig c2 then some (10 * dVal c + dVal c2, rest)
    else if isDig c then some (dVal c, c2 :: rest)
    else none
  | [c] => if isDig c then some (dVal c, []) else none
  | [] => none

/-- Directive %S: the pattern 6[01], else [0-5][0-9], else [0-9]. -/
def pSec : List Char → Option (Nat × List Char)
  | '6' :: c :: rest => if c = '0' ∨ c = '1' then some (60 + dVal c, rest) else some (6, c :: rest)
  | ['6'] => some (6, [])
  | c :: c2 :: rest =>
    if ('0' ≤ c ∧ c ≤ '5') ∧ isDig c2 then some (10 * dVal c + dVal c2, rest)
    else if isDig c then some (dVal c, c2 :: rest)
    else none
  | [c] => if isDig c then some (dVal c, []) else none
  | [] => none

/-- Directive %p: AM or PM, case-insensitively; true means PM. -/
def pAmPm : List Char → Option (Bool × List Char)
  | a :: m :: rest =>
    if (a = 'A' ∨ a = 'a') ∧ (m = 'M' ∨ m = 'm') then some (false, rest)
    else if (a = 'P' ∨ a = 'p') ∧ (m = 'M' ∨ m = 'm') then some (true, rest)
    else none
  | _ => none

/-- Gregorian leap-year rule used by datetime. -/
def isLeap (y : Nat) : Bool := y % 4 = 0 ∧ (y % 100 ≠ 0 ∨ y % 400 = 0)

/-- Length of a month as validated by the datetime constructor. -/
def daysInMonth (y m : Nat) : Nat :=
  if m = 2 then (if isLeap y then 29 else 28)
  else if m = 4 ∨ m = 6 ∨ m = 9 ∨ m = 11 then 30 else 31

/-- A parsed wall-clock time. -/
structure PyDateTime where
  year : Nat
  month : Nat
  day : Nat
  hour : Nat
  minute : Nat
  second : Nat
deriving DecidableEq

/-- Conversion of a 12-hour clock reading and an AM/PM flag to 24-hour time. -/
def to24 (h12 : Nat) (isPM : Bool) : Nat :=
  if isPM then (if h12 = 12 then 12 else h12 + 12) else (if h12 = 12 then 0 else h12)

/-- Model of datetime.strptime(s, '%m/%d/%Y %I:%M:%S %p'): match the whole
    string against the format, then validate the date the way the datetime
    constructor does (year at least 1, day within the month, second below 60). -/
def strptime_mdY_IMSp (s : String) : Option PyDateTime := do
  let (m, r1) ← pMonth12 s.data
  let r2 ← pLit '/' r1
  let (d, r3) ← pDay r2
  let r4 ← pLit '/' r3
  let (y, r5) ← pYear4 r4
  let r6 ← pWs r5
  let (h12, r7) ← pMonth12 r6
  let r8 ← pLit ':' r7
  let (mi, r9) ← pMin r8
  let r10 ← pLit ':' r9
  let (sec, r11) ← pSec r10
  let r12 ← pWs r11
  let (isPM, r13) ← pAmPm r12
  if r13 = [] ∧ 1 ≤ y ∧ d ≤ daysInMonth y m ∧ sec ≤ 59 then
    some ⟨y, m, d, to24 h12 isPM, mi, sec⟩
  else none

/-- Zero-padding to two digits. -/
def pad2 (n : Nat) : String := if n < 10 then "0" ++ toString n else toString n

/-- Zero-padding to four digits. -/
def pad4 (n : Nat) : String :=
  if n < 10 then "000" ++ toString n
  else if n < 100 then "00" ++ toString n
  else if n < 1000 then "0" ++ toString n
  else toString n

/-- The isoformat() rendering of a parsed time (no fractional seconds). -/
def isoformat (t : PyDateTime) : String :=
  pad4 t.year ++ "-" ++ pad2 t.month ++ "-" ++ pad2 t.day ++ "T" ++
    pad2 t.hour ++ ":" ++ pad2 t.minute ++ ":" ++ pad2 t.second

/-- The timestamp normalization applied per row at do.py lines 126-129:
    `none` models the ValueError raised on a non-matching string. -/
def strptimeIso (s : String) : Option String := Option.map isoformat (strptime_mdY_IMSp s)

/-- One row of the consolidated feature collection as read back by the
    cleaner, with the numeric casts of do.py lines 123-125 already applied. -/
structure SrcRow where
  segment_id : String
  street_name : String
  application_id : String
  application_submitted_date : String
  application_email_id : String
  ofc_cable_length : Rat
  number_of_pits : Int
  authorized_person : String
  segment_length : Rat
  ward_name : String
  zone_name : String
  geometry : List (Rat × Rat)
deriving DecidableEq

/-- The fixed domain table of do.py lines 58-73, in source order. -/
def email_mappings : List (String × String) :=
  [("ril.com", "Reliance Jio"),
   ("acttv.in", "ACT TV"),
   ("vodafone.com", "Vodafone Idea"),
   ("airtel.com", "Bharti Airtel"),
   ("vodafoneidea.com", "Vodafone Idea"),
   ("idea.adityabirla.com", "Vodafone Idea"),
   ("tatadocomo.com", "TATA Docomo"),
   ("relianceada.com", "Reliance ADA"),
   ("tatacommunications.com", "TATA Communications"),
   ("tataskybb.com", "TATA Sky Broadband"),
   ("tatatel.co.in", "TATA Teleservices"),
   ("i-on.in", "i-on"),
   ("spectranet.in", "Spectra"),
   ("actcorp.in", "ACT Fibernet")]

/-- Python str.split with a one-character separator: splits at every
    occurrence and keeps empty pieces. -/
def splitChar (sep : Char) : List Char → List (List Char)
  | [] => [[]]
  | x :: xs =>
    if x = sep then [] :: splitChar sep xs
    else
      match splitChar sep xs with
      | g :: gs => (x :: g) :: gs
      | [] => [[x]]

/-- Model of parse_email_domain (do.py lines 75-84): split on at-sign, take
    element 1, look it up; the bare except turns every failure into None. -/
def parse_email_domain (email_id : String) : Option String :=
  match (splitChar '@' email_id.data).get? 1 with
  | none => none
  | some domainChars => List.lookup (String.mk domainChars) email_mappings

/-- The pandas drop_duplicates(keep='first') kernel: keep a row whose key was
    not seen yet, preserving input order. -/
def dedupBy {α κ : Type} [DecidableEq κ] (key : α → κ) : List α → List κ → List α
  | [], _ => []
  | x :: xs, seen =>
    if key x ∈ seen then dedupBy key xs seen else x :: dedupBy key xs (key x :: seen)

/-- Key of the segment view (do.py line 116). -/
def segKey (r : SrcRow) : String × String := (r.segment_id, r.application_id)

/-- Key of the spread view (do.py line 147). -/
def spreadKey (r : SrcRow) : List (Rat × Rat) × String := (r.geometry, r.segment_id)

/-- The deduplicated segment table before column projection (do.py line 116). -/
def gdf_segments_dedup (gdf : List SrcRow) : List SrcRow := dedupBy segKey gdf []

/-- The deduplicated spread table before column projection (do.py line 147). -/
def gdf_spread_dedup (gdf : List SrcRow) : List SrcRow := dedupBy spreadKey gdf []

/-- One row of bbmp_ofc_segments.csv (column projection of do.py lines 131-139). -/
structure SegRow where
  segment_id : String
  application_submitted_time : String
  segment_length : Rat
  ofc_cable_length : Rat
  company : Option String
  number_of_pits : Int
  ward_name : String
deriving DecidableEq

/-- One row of the spread layer (column projection of do.py lines 155-161). -/
structure SpreadRow where
  geometry : List (Rat × Rat)
  company : Option String
  street_name : String
  application_submitted_time : String
  segment_id : String
deriving DecidableEq

/-- Enrichment and projection of one segment row (do.py lines 122-139);
    a timestamp that fails to parse raises. -/
def toSegRow (r : SrcRow) : Except String SegRow :=
  match strptimeIso r.application_submitted_date with
  | none => Except.error "ValueError: time data does not match format"
  | some t =>
    Except.ok ⟨r.segment_id, t, r.segment_length, r.ofc_cable_length,
      parse_email_domain r.application_email_id, r.number_of_pits, r.ward_name⟩

/-- Enrichment and projection of one spread row (do.py lines 148-161). -/
def toSpreadRow (r : SrcRow) : Except String SpreadRow :=
  match strptimeIso r.application_submitted_date with
  | none => Except.error "ValueError: time data does not match format"
  | some t =>
    Except.ok ⟨r.geometry, parse_email_domain r.application_email_id, r.street_name, t, r.segment_id⟩

/-- The segment summary written to bbmp_ofc_segments.csv. -/
def gdf_segments (gdf : List SrcRow) : Except String (List SegRow) :=
  mapME toSegRow (gdf_segments_dedup gdf)

/-- The spread view written to bbmp_ofc_segment_portions.gpkg. -/
def gdf_spread (gdf : List SrcRow) : Except String (List SpreadRow) :=
  mapME toSpreadRow (gdf_spread_dedup gdf)

/-- Add one measurement to the running per-company totals. -/
def addToGroup : List (String × Rat) → String → Rat → List (String × Rat)
  | [], c, q => [(c, q)]
  | (c0, s) :: rest, c, q =>
    if c0 = c then (c0, s + q) :: rest else (c0, s) :: addToGroup rest c q

/-- One step of groupby('company').sum(): a row with an absent company is
    dropped (pandas groups only non-null keys). -/
def gbStep (acc : List (String × Rat)) (r : SegRow) : List (String × Rat) :=
  match r.company with
  | none => acc
  | some c => addToGroup acc c r.ofc_cable_length

/-- Model of groupby('company').sum()['ofc_cable_length'] (do.py line 143):
    fold the rows into per-company totals (pandas additionally sorts the group
    keys for display, which does not change any total). -/
def view_total_ofc_length (rows : List SegRow) : List (String × Rat) :=
  rows.foldl gbStep []

/-- The specification-side reading of a per-operator total: the sum of
    ofc_cable_length over exactly the rows attributed to that operator. -/
def opSum (rows : List SegRow) (op : String) : Rat :=
  ((rows.filter (fun r => decide (r.company = some op))).map SegRow.ofc_cable_length).sum

/-- First-appearance list of the non-absent companies of the spread view
    (the frame order of generate_spread_gif, do.py line 96). -/
def uniqueCompanies (sprd : List SpreadRow) : List String :=
  dedupBy (fun s => s) (sprd.filterMap (fun p => p.company)) []

/-- Observable outcome of one run of clean_data_derive_insights: which files
    were written, what was printed, and the first uncaught exception if any. -/
structure RunOut where
  segments_csv : Option (List SegRow)
  printed_totals : Option (List (String × Rat))
  spread_gpkg : Option (List SpreadRow)
  gif_companies : Option (List String)
  err : Option String

/-- Model of clean_data_derive_insights (do.py lines 32-166), preserving the
    order of effects: the segment CSV is written and the totals printed before
    the spread view is computed. -/
def clean_data_derive_insights (gdf : List SrcRow) : RunOut :=
  match gdf_segments gdf with
  | Except.error e => ⟨none, none, none, none, some e⟩
  | Except.ok segs =>
    match gdf_spread gdf with
    | Except.error e => ⟨some segs, some (view_total_ofc_length segs), none, none, some e⟩
    | Except.ok sprd =>
      ⟨some segs, some (view_total_ofc_length segs), some sprd, some (uniqueCompanies sprd), none⟩

/-- Sample permit row, as if read from one raw ward file. -/
def rS1 : SrcRow :=
  ⟨"S1", "MG Road", "A1", "1/2/2020 3:04:05 PM", "a@ril.com", 5, 1, "P1", 10, "W1", "Z1", [(1, 2), (3, 4)]⟩

/-- Second sample permit row from a second raw ward file: same segment_id and
    application_id as rS1 but a different geometry. -/
def rS2 : SrcRow :=
  ⟨"S1", "MG Road", "A1", "1/2/2020 3:04:05 PM", "x@unknown.org", 7, 2, "P2", 10, "W1", "Z1", [(5, 6)]⟩

/-- Source collection holding the two sample rows. -/
def gdfS : List SrcRow := [rS1, rS2]

/-- The segment summary of gdfS. -/
def segsS : List SegRow := [⟨"S1", "2020-01-02T15:04:05", 10, 5, some "Reliance Jio", 1, "W1"⟩]

/-- The spread view of gdfS. -/
def sprdS : List SpreadRow :=
  [⟨[(1, 2), (3, 4)], some "Reliance Jio", "MG Road", "2020-01-02T15:04:05", "S1"⟩,
   ⟨[(5, 6)], none, "MG Road", "2020-01-02T15:04:05", "S1"⟩]

/-- Row whose submission date matches no strptime pattern. -/
def rBad : SrcRow := ⟨"S9", "X", "A9", "not-a-date", "a@ril.com", 1, 1, "P", 1, "W", "Z", []⟩

/-- Collection holding only rBad. -/
def gdfBad : List SrcRow := [rBad]

/-- Parser table for the outer-parse counterexample: only the body "good"
    parses, to an envelope whose d-field decodes to an empty row list. -/
def loadsCex : String → Option Json := fun s =>
  if s = "good" then some (Json.obj [("d", Json.str "rows0")])
  else if s = "rows0" then some (Json.arr [])
  else none

/-- Directory listing whose first file body is unparseable and whose second
    is well-formed. -/
def filesCex : List (String × String) :=
  [("data_raw/1.txt", "<html>server error</html>"), ("data_raw/2.txt", "good")]

/-- Parser table with one file whose d-field fails to decode and one
    well-formed file. -/
def loadsW1 : String → Option Json := fun s =>
  if s = "badinner" then some (Json.obj [("d", Json.str "nope")])
  else if s = "good" then some (Json.obj [("d", Json.str "rows0")])
  else if s = "rows0" then some (Json.arr [])
  else none

/-- Directory listing pairing the skipped file with a well-formed one. -/
def filesW1 : List (String × String) := [("data_raw/3.txt", "badinner"), ("data_raw/4.txt", "good")]

/-- A permit row lacking every expected key but SegmentID. -/
def badRowW10 : Json := Json.obj [("SegmentID", Json.str "s1")]

/-- Parser table whose single file parses fully but carries badRowW10. -/
def loadsW10 : String → Option Json := fun s =>
  if s = "fbody" then some (Json.obj [("d", Json.str "rbody")])
  else if s = "rbody" then some (Json.arr [badRowW10])
  else none

/-- Directory listing holding the file with the malformed row. -/
def filesW10 : List (String × String) := [("data_raw/9.txt", "fbody")]

/-- Network stub whose every response body is the string "page". -/
def postOk : Nat → Option String := fun _ => some "page"

/-- Network stub modelling a raised request. -/
def postBad : Nat → Option String := fun _ => none

/-- Parser table under which every zone yields exactly one ward. -/
def loadsOk : String → Option Json := fun s =>
  if s = "page" then some (Json.obj [("d", Json.str "warr")])
  else if s = "warr" then
    some (Json.arr [Json.obj [("Zone_Name", Json.str "Z"), ("Ward_Id", Json.num 1), ("Ward_Name", Json.str "W")]])
  else none

/-- Parser table under which every zone yields an empty ward list. -/
def loadsEmpty : String → Option Json := fun s =>
  if s = "page" then some (Json.obj [("d", Json.str "earr")])
  else if s = "earr" then some (Json.arr [])
  else none

/-- Association lookup for the per-company totals, keyed propositionally. -/
def getGroup (op : String) : List (String × Rat) → Option Rat
  | [] => none
  | (c, s) :: rest => if c = op then some s else getGroup op rest

/-- A row kept by dedupBy has a key outside the already-seen set. -/
theorem dedupBy_key_not_seen {α κ : Type} [DecidableEq κ] (key : α → κ) :
    ∀ (xs : List α) (seen : List κ) (r : α), r ∈ dedupBy key xs seen → key r ∉ seen := by
  intro xs
  induction xs with
  | nil => intro seen r hr; simp [dedupBy] at hr
  | cons x xs ih =>
    intro seen r hr
    by_cases hx : key x ∈ seen
    · rw [dedupBy, if_pos hx] at hr
      exact ih seen r hr
    · rw [dedupBy, if_neg hx] at hr
      rcases List.mem_cons.mp hr with hrx | hr2
      · subst hrx; exact hx
      · intro hmem
        exact ih (key x :: seen) r hr2 (List.mem_cons_of_mem _ hmem)

/-- Every row kept by dedupBy is the first row of the input with its key. -/
theorem dedupBy_find {α κ : Type} [DecidableEq κ] (key : α → κ) :
    ∀ (xs : List α) (seen : List κ) (r : α), r ∈ dedupBy key xs seen →
      List.find? (fun a => decide (key a = key r)) xs = some r := by
  intro xs
  induction xs with
  | nil => intro seen r hr; simp [dedupBy] at hr
  | cons x xs ih =>
    intro seen r hr
    by_cases hx : key x ∈ seen
    · rw [dedupBy, if_pos hx] at hr
      have hne : key x ≠ key r := by
        intro he
        exact dedupBy_key_not_seen key xs seen r hr (he ▸ hx)
      rw [List.find?_cons_of_neg _ (by simpa using hne)]
      exact ih seen r hr
    · rw [dedupBy, if_neg hx] at hr
      rcases List.mem_cons.mp hr with hrx | hr2
      · subst hrx
        exact List.find?_cons_of_pos _ (by simp)
      · have hnot := dedupBy_key_not_seen key xs (key x :: seen) r hr2
        have hne : key x ≠ key r := fun he => hnot (he ▸ List.mem_cons_self _ _)
        rw [List.find?_cons_of_neg _ (by simpa using hne)]
        exact ih (key x :: seen) r hr2

/-- The keys of a deduplicated list are pairwise distinct. -/
theorem dedupBy_keys_nodup {α κ : Type} [DecidableEq κ] (key : α → κ) :
    ∀ (xs : List α) (seen : List κ), (List.map key (dedupBy key xs seen)).Nodup := by
  intro xs
  induction xs with
  | nil => intro seen; simp [dedupBy]
  | cons x xs ih =>
    intro seen
    by_cases hx : key x ∈ seen
    · rw [dedupBy, if_pos hx]; exact ih seen
    · rw [dedupBy, if_neg hx]
      refine List.nodup_cons.mpr ⟨?_, ih (key x :: seen)⟩
      intro hmem
      rcases List.mem_map.mp hmem with ⟨r, hr, hk⟩
      exact dedupBy_key_not_seen key xs (key x :: seen) r hr (hk ▸ List.mem_cons_self _ _)

/-- Every input key either was already seen or survives deduplication. -/
theorem dedupBy_complete {α κ : Type} [DecidableEq κ] (key : α → κ) :
    ∀ (xs : List α) (seen : List κ) (a : α), a ∈ xs →
      key a ∈ seen ∨ ∃ r, r ∈ dedupBy key xs seen ∧ key r = key a := by
  intro xs
  induction xs with
  | nil => intro seen a ha; cases ha
  | cons x xs ih =>
    intro seen a ha
    by_cases hx : key x ∈ seen
    · rw [dedupBy, if_pos hx]
      rcases List.mem_cons.mp ha with hax | ha2
      · subst hax; exact Or.inl hx
      · exact ih seen a ha2
    · rw [dedupBy, if_neg hx]
      rcases List.mem_cons.mp ha with hax | ha2
      · subst hax; exact Or.inr ⟨_, List.mem_cons_self _ _, rfl⟩
      · rcases ih (key x :: seen) a ha2 with hseen | ⟨r, hr, hk⟩
        · rcases List.mem_cons.mp hseen with he | hs
          · exact Or.inr ⟨x, List.mem_cons_self _ _, he.symm⟩
          · exact Or.inl hs
        · exact Or.inr ⟨r, List.mem_cons_of_mem _ hr, hk⟩

/-- A row-wise map fails as soon as any row fails. -/
theorem mapME_isErr_of_mem {α β : Type} (f : α → Except String β) :
    ∀ (xs : List α) (x : α), x ∈ xs → isErr (f x) = true → isErr (mapME f xs) = true := by
  intro xs
  induction xs with
  | nil => intro x hx; cases hx
  | cons y ys ih =>
    intro x hx hbad
    cases hy : f y with
    | error e => simp [mapME, hy, isErr]
    | ok b =>
      rcases List.mem_cons.mp hx with hxy | hx2
      · subst hxy; rw [hy] at hbad; simp [isErr] at hbad
      · have hrec := ih x hx2 hbad
        cases hm : mapME f ys with
        | error e => simp [mapME, hy, hm, isErr]
        | ok bs => rw [hm] at hrec; simp [isErr] at hrec

/-- A row-wise map that succeeds succeeds row by row. -/
theorem mapME_ok_forall₂ {α β : Type} (f : α → Except String β) :
    ∀ (xs : List α) (ys : List β), mapME f xs = Except.ok ys →
      List.Forall₂ (fun x y => f x = Except.ok y) xs ys := by
  intro xs
  induction xs with
  | nil =>
    intro ys h
    simp only [mapME, Except.ok.injEq] at h
    subst h; exact List.Forall₂.nil
  | cons x xs ih =>
    intro ys h
    cases hfx : f x with
    | error e => rw [mapME, hfx] at h; cases h
    | ok y =>
      rw [mapME, hfx] at h
      cases hms : mapME f xs with
      | error e => rw [hms] at h; cases h
      | ok ys2 =>
        rw [hms] at h
        simp only [Except.ok.injEq] at h
        subst h
        exact List.Forall₂.cons hfx (ih ys2 hms)

/-- Left-to-right transport of membership along a Forall₂ relation. -/
theorem forall₂_mem_left {α β : Type} {R : α → β → Prop} :
    ∀ {xs : List α} {ys : List β}, List.Forall₂ R xs ys →
      ∀ {x : α}, x ∈ xs → ∃ y, y ∈ ys ∧ R x y := by
  intro xs ys h
  induction h with
  | nil => intro x hx; cases hx
  | cons hR _ ih =>
    intro x hx
    rcases List.mem_cons.mp hx with hxy | hx2
    · subst hxy; exact ⟨_, List.mem_cons_self _ _, hR⟩
    · rcases ih hx2 with ⟨y, hy, hr⟩
      exact ⟨y, List.mem_cons_of_mem _ hy, hr⟩

/-- Two projections agreeing along a Forall₂ relation give equal map images. -/
theorem forall₂_map_eq {α β γ : Type} {R : α → β → Prop} (f : α → γ) (g : β → γ) :
    ∀ {xs : List α} {ys : List β}, List.Forall₂ R xs ys →
      (∀ x y, R x y → g y = f x) → List.map g ys = List.map f xs := by
  intro xs ys h hfg
  induction h with
  | nil => rfl
  | cons hR _ ih =>
    simp only [List.map_cons]
    rw [hfg _ _ hR, ih]

/-- A successful association lookup comes from a listed pair. -/
theorem lookup_mem : ∀ (l : List (String × String)) (k v : String),
    List.lookup k l = some v → (k, v) ∈ l := by
  intro l
  induction l with
  | nil => intro k v h; simp [List.lookup] at h
  | cons kv rest ih =>
    intro k v h
    obtain ⟨k0, v0⟩ := kv
    rw [List.lookup] at h
    cases hkb : (k == k0) with
    | true =>
      rw [hkb] at h
      simp only [Option.some.injEq] at h
      subst h
      exact (eq_of_beq hkb) ▸ List.mem_cons_self _ _
    | false =>
      rw [hkb] at h
      exact List.mem_cons_of_mem _ (ih k v h)

/-- A spread row keeps the geometry and segment id of its source row. -/
theorem toSpreadRow_fields (r : SrcRow) (p : SpreadRow) (h : toSpreadRow r = Except.ok p) :
    p.geometry = r.geometry ∧ p.segment_id = r.segment_id := by
  unfold toSpreadRow at h
  cases hs : strptimeIso r.application_submitted_date with
  | none => rw [hs] at h; cases h
  | some t =>
    rw [hs] at h
    simp only [Except.ok.injEq] at h
    subst h
    exact ⟨rfl, rfl⟩

/-- A segment row whose timestamp fails to parse raises. -/
theorem toSegRow_err (r : SrcRow) (h : strptimeIso r.application_submitted_date = none) :
    isErr (toSegRow r) = true := by
  unfold toSegRow
  rw [h]
  rfl

/-- Adding a measurement updates exactly its own company total. -/
theorem getGroup_addToGroup_self :
    ∀ (acc : List (String × Rat)) (c : String) (q : Rat),
      getGroup c (addToGroup acc c q) = some ((getGroup c acc).getD 0 + q) := by
  intro acc
  induction acc with
  | nil => intro c q; simp [addToGroup, getGroup, zero_add]
  | cons kv acc ih =>
    intro c q
    obtain ⟨c0, s⟩ := kv
    by_cases h : c0 = c
    · subst h
      simp [addToGroup, getGroup]
    · rw [addToGroup, if_neg h, getGroup, if_neg h, getGroup, if_neg h]
      exact ih c q

/-- Adding a measurement leaves every other company total unchanged. -/
theorem getGroup_addToGroup_ne :
    ∀ (acc : List (String × Rat)) (op c : String) (q : Rat), op ≠ c →
      getGroup op (addToGroup acc c q) = getGroup op acc := by
  intro acc
  induction acc with
  | nil =>
    intro op c q hne
    rw [addToGroup, getGroup, getGroup, if_neg (fun he => hne he.symm)]
    rfl
  | cons kv acc ih =>
    intro op c q hne
    obtain ⟨c0, s⟩ := kv
    by_cases h : c0 = c
    · subst h
      rw [addToGroup, if_pos rfl, getGroup, getGroup, if_neg (fun he => hne he.symm), if_neg (fun he => hne he.symm)]
    · rw [addToGroup, if_neg h, getGroup, getGroup]
      by_cases h0 : c0 = op
      · rw [if_pos h0, if_pos h0]
      · rw [if_neg h0, if_neg h0]
        exact ih op c q hne

/-- Invariant of the groupby fold: the total of a company is its accumulator
    entry plus the filtered sum of the remaining rows. -/
theorem getGroup_foldl :
    ∀ (rows : List SegRow) (acc : List (String × Rat)) (op : String),
      getGroup op (List.foldl gbStep acc rows) =
        match getGroup op acc with
        | some s => some (s + opSum rows op)
        | none =>
          if rows.any (fun r => decide (r.company = some op)) = true then some (opSum rows op) else none := by
  intro rows
  induction rows with
  | nil =>
    intro acc op
    cases h : getGroup op acc with
    | none => simp [List.foldl, h]
    | some s => simp [List.foldl, h, opSum]
  | cons r rows ih =>
    intro acc op
    cases hc : r.company with
    | none =>
      have hstep : gbStep acc r = acc := by simp [gbStep, hc]
      have hfilter : (decide (r.company = some op)) = false := by simp [hc]
      have hsum : opSum (r :: rows) op = opSum rows op := by
        simp [opSum, List.filter_cons, hfilter]
      have hany : ((r :: rows).any fun x => decide (x.company = some op)) =
          (rows.any fun x => decide (x.company = some op)) := by
        simp [List.any_cons, hfilter]
      rw [List.foldl_cons, hstep, ih acc op, hsum, hany]
    | some c =>
      have hstep : gbStep acc r = addToGroup acc c r.ofc_cable_length := by simp [gbStep, hc]
      by_cases hoc : op = c
      · subst hoc
        have hfilter : (decide (r.company = some op)) = true := by simp [hc]
        have hsum : opSum (r :: rows) op = r.ofc_cable_length + opSum rows op := by
          simp [opSum, List.filter_cons, hfilter]
        cases h0 : getGroup op acc with
        | some s =>
          have hself : getGroup op (addToGroup acc op r.ofc_cable_length) = some (s + r.ofc_cable_length) := by
            rw [getGroup_addToGroup_self, h0]; rfl
          rw [List.foldl_cons, hstep, ih (addToGroup acc op r.ofc_cable_length) op, hself]
          simp [hsum, add_assoc]
        | none =>
          have hself : getGroup op (addToGroup acc op r.ofc_cable_length) = some (0 + r.ofc_cable_length) := by
            rw [getGroup_addToGroup_self, h0]; rfl
          rw [List.foldl_cons, hstep, ih (addToGroup acc op r.ofc_cable_length) op, hself]
          simp [hsum, List.any_cons, hfilter, zero_add]
      · have hco : c ≠ op := fun he => hoc he.symm
        have hfilter : (decide (r.company = some op)) = false := by simp [hc, hco]
        have hsum : opSum (r :: rows) op = opSum rows op := by
          simp [opSum, List.filter_cons, hfilter]
        have hany : ((r :: rows).any fun x => decide (x.company = some op)) =
            (rows.any fun x => decide (x.company = some op)) := by
          simp [List.any_cons, hfilter]
        rw [List.foldl_cons, hstep, ih (addToGroup acc c r.ofc_cable_length) op,
          getGroup_addToGroup_ne acc op c r.ofc_cable_length hoc, hsum, hany]

/-- The requested zones always form a sublist of the fixed zone range. -/
theorem gwGo_sublist (post : Nat → Option String) (loads : String → Option Json) :
    ∀ (zs : List Nat) (acc : List (List (String × Json))),
      ((get_wardsGo post loads zs acc).1).Sublist zs := by
  intro zs
  induction zs with
  | nil => intro acc; simp [get_wardsGo]
  | cons z zs ih =>
    intro acc
    rw [get_wardsGo]
    cases hf : fetchZone post loads z with
    | error e => exact (List.nil_sublist zs).cons₂ z
    | ok rows => exact (ih (acc ++ rows)).cons₂ z

/-- When every zone succeeds, each zone is requested exactly once, in order,
    and the accumulated rows are returned. -/
theorem gwGo_all_ok (post : Nat → Option String) (loads : String → Option Json) :
    ∀ (zs : List Nat) (acc : List (List (String × Json))),
      (∀ z, z ∈ zs → isErr (fetchZone post loads z) = false) →
      (get_wardsGo post loads zs acc).1 = zs := by
  intro zs
  induction zs with
  | nil => intro acc _; simp [get_wardsGo]
  | cons z zs ih =>
    intro acc hall
    rw [get_wardsGo]
    cases hf : fetchZone post loads z with
    | error e =>
      have := hall z (List.mem_cons_self _ _)
      rw [hf] at this
      simp [isErr] at this
    | ok rows =>
      simp only []
      rw [ih (acc ++ rows) (fun w hw => hall w (List.mem_cons_of_mem _ hw))]

/-- A failing zone makes the whole enumeration fail. -/
theorem gwGo_err_of_mem (post : Nat → Option String) (loads : String → Option Json) :
    ∀ (zs : List Nat) (acc : List (List (String × Json))) (z : Nat),
      z ∈ zs → isErr (fetchZone post loads z) = true →
      isErr (get_wardsGo post loads zs acc).2 = true := by
  intro zs
  induction zs with
  | nil => intro acc z hz; cases hz
  | cons z0 zs ih =>
    intro acc z hz hbad
    rw [get_wardsGo]
    cases hf : fetchZone post loads z0 with
    | error e => rfl
    | ok rows =>
      rcases List.mem_cons.mp hz with hzz | hz2
      · subst hzz; rw [hf] at hbad; simp [isErr] at hbad
      · exact ih (acc ++ rows) z hz2 hbad

/-- When every zone succeeds with zero wards, the loop returns its
    accumulator unchanged. -/
theorem gwGo_all_empty (post : Nat → Option String) (loads : String → Option Json) :
    ∀ (zs : List Nat) (acc : List (List (String × Json))),
      (∀ z, z ∈ zs → isOkEmpty (fetchZone post loads z) = true) →
      get_wardsGo post loads zs acc = (zs, Except.ok acc) := by
  intro zs
  induction zs with
  | nil => intro acc _; rfl
  | cons z zs ih =>
    intro acc hall
    have hz := hall z (List.mem_cons_self _ _)
    cases hf : fetchZone post loads z with
    | error e => rw [hf] at hz; simp [isOkEmpty] at hz
    | ok rows =>
      cases rows with
      | cons w ws => rw [hf] at hz; simp [isOkEmpty] at hz
      | nil =>
        simp only [get_wardsGo, hf]
        rw [List.append_nil, ih acc (fun w hw => hall w (List.mem_cons_of_mem _ hw))]

/-- When no file aborts, the collector finishes and prints exactly one
    diagnostic per skipped file, in directory order. -/
theorem cbGo_all_ok (loads : String → Option Json) :
    ∀ (files : List (String × String)),
      (∀ p, p ∈ files → isErr (processFile loads p.2) = false) →
      (∃ out, (cbGo loads files).2 = Except.ok out) ∧
      (cbGo loads files).1 =
        (files.filter (fun p => isSkip (processFile loads p.2))).map (fun p => diagMsg p.1) := by
  intro files
  induction files with
  | nil => intro _; exact ⟨⟨[], rfl⟩, rfl⟩
  | cons p rest ih =>
    intro hall
    obtain ⟨n, c⟩ := p
    have hhd := hall (n, c) (List.mem_cons_self _ _)
    have htl := ih (fun q hq => hall q (List.mem_cons_of_mem _ hq))
    cases hp : processFile loads c with
    | error e => rw [hp] at hhd; simp [isErr] at hhd
    | ok feats =>
      cases feats with
      | none =>
        rcases htl with ⟨⟨out, hout⟩, hlog⟩
        refine ⟨⟨out, ?_⟩, ?_⟩
        · rw [cbGo, hp]; exact hout
        · rw [cbGo, hp]
          simp [List.filter_cons, hp, isSkip, hlog]
      | some fs =>
        rcases htl with ⟨⟨out, hout⟩, hlog⟩
        refine ⟨⟨fs ++ out, ?_⟩, ?_⟩
        · rw [cbGo, hp, hout]
        · rw [cbGo, hp]
          simp [List.filter_cons, hp, isSkip, hlog]

/-- A file that raises an uncaught exception aborts the collector. -/
theorem cbGo_err_of_mem (loads : String → Option Json) :
    ∀ (files : List (String × String)) (n c : String),
      (n, c) ∈ files → isErr (processFile loads c) = true →
      isErr (cbGo loads files).2 = true := by
  intro files
  induction files with
  | nil => intro n c hmem; cases hmem
  | cons p rest ih =>
    intro n c hmem hbad
    obtain ⟨n0, c0⟩ := p
    cases hp : processFile loads c0 with
    | error e => rw [cbGo, hp]; rfl
    | ok feats =>
      rcases List.mem_cons.mp hmem with hpp | hm2
      · have hc : c = c0 := congrArg Prod.snd hpp
        rw [hc, hp] at hbad
        simp [isErr] at hbad
      · have hrec := ih n c hm2 hbad
        cases feats with
        | none => rw [cbGo, hp]; exact hrec
        | some fs =>
          rw [cbGo, hp]
          cases hm : (cbGo loads rest).2 with
          | error e => rfl
          | ok l => rw [hm] at hrec; simp [isErr] at hrec

/-- Once the inner envelope has parsed to a row list, the file outcome is
    exactly the outcome of the per-row loop. -/
theorem processFile_isErr_rows (loads : String → Option Json) (content : String)
    (rows : List Json) (h : innerRows loads content = some rows) :
    isErr (processFile loads content) = isErr (mapME (processRow loads) rows) := by
  unfold innerRows at h
  cases hl : loads content with
  | none => rw [hl] at h; cases h
  | some data =>
    rw [hl] at h
    have h2 : (match innerPayload loads data with
        | some (Json.arr rows2) => some rows2
        | _ => none) = some rows := h
    cases hp : innerPayload loads data with
    | none => rw [hp] at h2; cases h2
    | some v =>
      rw [hp] at h2
      cases v with
      | arr rows2 =>
        have h3 : rows2 = rows := Option.some.inj h2
        subst h3
        simp only [processFile, hl, hp]
        cases hm : mapME (processRow loads) rows2 with
        | error e => rfl
        | ok fs => rfl
      | null => cases h2
      | bool b => cases h2
      | num q => cases h2
      | str s => cases h2
      | obj fs => cases h2

/-- C1 counterexample: the first raw file's outer JSON envelope fails to
    parse under loadsCex; the collector aborts with an uncaught exception,
    prints no diagnostic, and never reaches the second (well-formed) file, so
    the claim that either kind of parse failure is skipped non-fatally is
    false at this input. -/
theorem c1_outer_parse_aborts :
    isErr (create_behemoth_geojson loadsCex filesCex).2 = true ∧
    (create_behemoth_geojson loadsCex filesCex).1 = [] := ⟨rfl, rfl⟩

/-- C1 (amended): a failure to decode the inner JSON-encoded d field is
    caught, the file is skipped with one diagnostic, and the run finishes on
    the remaining files; but a file whose outer JSON envelope fails to parse
    raises an uncaught exception that aborts the whole collector. -/
theorem c1_collector_skip_policy (loads : String → Option Json) (files : List (String × String)) :
    ((∀ p, p ∈ files → isErr (processFile loads p.2) = false) →
      (∃ out, (create_behemoth_geojson loads files).2 = Except.ok out) ∧
      (create_behemoth_geojson loads files).1 =
        (files.filter (fun p => isSkip (processFile loads p.2))).map (fun p => diagMsg p.1)) ∧
    (∀ content data, loads content = some data → innerPayload loads data = none →
      isSkip (processFile loads content) = true) ∧
    (∀ p, p ∈ files → loads p.2 = none →
      isErr (create_behemoth_geojson loads files).2 = true) := by
  refine ⟨fun hall => cbGo_all_ok loads files hall, ?_, ?_⟩
  · intro content data h1 h2
    simp [processFile, h1, h2, isSkip]
  · intro p hp hnone
    have hbad : isErr (processFile loads p.2) = true := by
      simp [processFile, hnone, isErr]
    exact cbGo_err_of_mem loads files p.1 p.2 hp hbad

/-- C1 witness: under loadsW1 the first file's inner d field fails to decode
    and the second file is well-formed, so the run completes with exactly one
    diagnostic naming the skipped file; under loadsCex an outer-envelope
    failure aborts the run. -/
theorem c1_collector_skip_policy_witness :
    ((∃ out, (create_behemoth_geojson loadsW1 filesW1).2 = Except.ok out) ∧
      (create_behemoth_geojson loadsW1 filesW1).1 = [diagMsg "data_raw/3.txt"]) ∧
    isErr (create_behemoth_geojson loadsCex filesCex).2 = true := by
  refine ⟨?_, ?_⟩
  · have h := (c1_collector_skip_policy loadsW1 filesW1).1 (by decide)
    exact ⟨h.1, h.2.trans (by rfl)⟩
  · exact (c1_collector_skip_policy loadsCex filesCex).2.2
      ("data_raw/1.txt", "<html>server error</html>") (by decide) (by rfl)

/-- C2: the model of the strptime call at do.py line 127 normalizes the
    timestamp 1/2/2020 3:04:05 PM to 2020-01-02T15:04:05, and any retained
    row whose application_submitted_date does not match the exact format
    makes the cleaning stage raise, with no segment CSV written (no fallback
    format exists).  Note the claim fails on do.py as written for a different
    reason: datetime is never imported, so the call raises NameError on every
    row. -/
theorem c2_timestamp_contract :
    strptimeIso "1/2/2020 3:04:05 PM" = some "2020-01-02T15:04:05" ∧
    ∀ (gdf : List SrcRow) (r : SrcRow), r ∈ gdf_segments_dedup gdf →
      strptimeIso r.application_submitted_date = none →
      (clean_data_derive_insights gdf).err.isSome = true ∧
      (clean_data_derive_insights gdf).segments_csv = none := by
  refine ⟨rfl, ?_⟩
  intro gdf r hmem hbad
  have herr : isErr (gdf_segments gdf) = true := by
    unfold gdf_segments
    exact mapME_isErr_of_mem toSegRow (gdf_segments_dedup gdf) r hmem (toSegRow_err r hbad)
  cases hseg : gdf_segments gdf with
  | error e => simp [clean_data_derive_insights, hseg]
  | ok segs => rw [hseg] at herr; simp [isErr] at herr

/-- C2 witness: the single retained row of gdfBad carries the unparseable
    timestamp "not-a-date", so the cleaner raises and writes no CSV. -/
theorem c2_timestamp_contract_witness :
    (clean_data_derive_insights gdfBad).err.isSome = true ∧
    (clean_data_derive_insights gdfBad).segments_csv = none :=
  c2_timestamp_contract.2 gdfBad rBad (by decide) (by rfl)

/-- C3: in the deduplicated segment table every (segment_id, application_id)
    pair occurs at most once, and each retained row is the first row of the
    input carrying its pair. -/
theorem c3_segment_pairs_unique_first (gdf : List SrcRow) :
    (List.map segKey (gdf_segments_dedup gdf)).Nodup ∧
    ∀ r, r ∈ gdf_segments_dedup gdf →
      List.find? (fun x => decide (segKey x = segKey r)) gdf = some r := by
  exact ⟨dedupBy_keys_nodup segKey gdf [],
    fun r hr => dedupBy_find segKey gdf [] r hr⟩

/-- C3 witness: on the two-row collection gdfS the keys are distinct and the
    retained row rS1 is the first occurrence of its pair. -/
theorem c3_segment_pairs_unique_first_witness :
    (List.map segKey (gdf_segments_dedup gdfS)).Nodup ∧
    List.find? (fun x => decide (segKey x = segKey rS1)) gdfS = some rS1 :=
  ⟨(c3_segment_pairs_unique_first gdfS).1,
   (c3_segment_pairs_unique_first gdfS).2 rS1 (by decide)⟩

/-- C4: in the spread view every (geometry, segment_id) pair occurs at most
    once, and every source row's (geometry, segment_id) pair appears in the
    spread view. -/
theorem c4_spread_pairs_unique_complete (gdf : List SrcRow) (sprd : List SpreadRow)
    (h : gdf_spread gdf = Except.ok sprd) :
    (List.map (fun p => (p.geometry, p.segment_id)) sprd).Nodup ∧
    ∀ r, r ∈ gdf → ∃ p, p ∈ sprd ∧ p.geometry = r.geometry ∧ p.segment_id = r.segment_id := by
  unfold gdf_spread at h
  have hf := mapME_ok_forall₂ toSpreadRow (gdf_spread_dedup gdf) sprd h
  constructor
  · have hmap : List.map (fun p => (p.geometry, p.segment_id)) sprd =
        List.map spreadKey (gdf_spread_dedup gdf) := by
      refine forall₂_map_eq spreadKey (fun p => (p.geometry, p.segment_id)) hf ?_
      intro x y hxy
      have hfld := toSpreadRow_fields x y hxy
      simp [spreadKey, hfld.1, hfld.2]
    rw [hmap]
    exact dedupBy_keys_nodup spreadKey gdf []
  · intro r hr
    rcases dedupBy_complete spreadKey gdf [] r hr with h0 | ⟨x, hx, hk⟩
    · cases h0
    · rcases forall₂_mem_left hf hx with ⟨p, hp, hxy⟩
      have hfld := toSpreadRow_fields x p hxy
      have hk2 : x.geometry = r.geometry ∧ x.segment_id = r.segment_id := by
        unfold spreadKey at hk
        exact ⟨congrArg Prod.fst hk, congrArg Prod.snd hk⟩
      exact ⟨p, hp, hfld.1.trans hk2.1, hfld.2.trans hk2.2⟩

/-- C4 witness: on gdfS the spread view has two distinct pairs and contains
    the pair of the second source row rS2. -/
theorem c4_spread_pairs_unique_complete_witness :
    (List.map (fun p => (p.geometry, p.segment_id)) sprdS).Nodup ∧
    ∃ p, p ∈ sprdS ∧ p.geometry = rS2.geometry ∧ p.segment_id = rS2.segment_id :=
  ⟨(c4_spread_pairs_unique_complete gdfS sprdS (by rfl)).1,
   (c4_spread_pairs_unique_complete gdfS sprdS (by rfl)).2 rS2 (by decide)⟩

/-- C5: when the segment stage succeeds, the segment CSV holds exactly the
    deduplicated rows (rows with an absent operator included), and the
    reported total for each operator equals the sum of ofc_cable_length over
    exactly the rows attributed to that operator; an operator with no row has
    no entry. -/
theorem c5_totals_per_operator (gdf : List SrcRow) (segs : List SegRow)
    (h : gdf_segments gdf = Except.ok segs) :
    (clean_data_derive_insights gdf).segments_csv = some segs ∧
    (clean_data_derive_insights gdf).printed_totals = some (view_total_ofc_length segs) ∧
    ∀ op, getGroup op (view_total_ofc_length segs) =
      (if (segs.any fun r => decide (r.company = some op)) = true then some (opSum segs op) else none) := by
  refine ⟨?_, ?_, ?_⟩
  · rw [clean_data_derive_insights, h]
    cases hsp : gdf_spread gdf with
    | error e => rfl
    | ok sprd => rfl
  · rw [clean_data_derive_insights, h]
    cases hsp : gdf_spread gdf with
    | error e => rfl
    | ok sprd => rfl
  · intro op
    have := getGroup_foldl segs [] op
    simpa [view_total_ofc_length, getGroup] using this

/-- C5 witness: on gdfS the written CSV is exactly segsS, whose single row
    (operator Reliance Jio) makes that operator's reported total equal the
    filtered sum, while rS2's row carries an absent operator and is dropped
    from every group. -/
theorem c5_totals_per_operator_witness :
    (clean_data_derive_insights gdfS).segments_csv = some segsS ∧
    getGroup "Reliance Jio" (view_total_ofc_length segsS) = some (opSum segsS "Reliance Jio") ∧
    getGroup "Vodafone Idea" (view_total_ofc_length segsS) = none := by
  have h := c5_totals_per_operator gdfS segsS (by rfl)
  refine ⟨h.1, ?_, ?_⟩
  · rw [h.2.2 "Reliance Jio", if_pos (by decide)]
  · rw [h.2.2 "Vodafone Idea", if_neg (by decide)]

/-- C6: the email-to-operator lookup is a pure total function over the fixed
    14-entry table: a mapped domain yields its operator, an unmapped domain
    or a string without an at-sign yields an absent operator, and any
    successful lookup comes from the table. -/
theorem c6_email_lookup_total :
    parse_email_domain "a@actcorp.in" = some "ACT Fibernet" ∧
    parse_email_domain "a@unknown.org" = none ∧
    parse_email_domain "not-an-email" = none ∧
    email_mappings.length = 14 ∧
    ∀ e op, parse_email_domain e = some op →
      ∃ d, (d, op) ∈ email_mappings ∧ (splitChar '@' e.data).get? 1 = some d.data := by
  refine ⟨rfl, rfl, rfl, rfl, ?_⟩
  intro e op h
  unfold parse_email_domain at h
  cases hs : (splitChar '@' e.data).get? 1 with
  | none => rw [hs] at h; cases h
  | some domainChars =>
    rw [hs] at h
    exact ⟨String.mk domainChars, lookup_mem email_mappings (String.mk domainChars) op h, rfl⟩

/-- C6 witness: the successful lookup for a@ril.com is certified to come from
    the table. -/
theorem c6_email_lookup_total_witness :
    ∃ d, (d, "Reliance Jio") ∈ email_mappings ∧
      (splitChar '@' "a@ril.com".data).get? 1 = some d.data :=
  c6_email_lookup_total.2.2.2.2 "a@ril.com" "Reliance Jio" (by rfl)

/-- C7: for the collection gdfS built from two raw ward files whose rows
    share segment_id and application_id but differ in geometry, the segment
    summary has exactly one row for the pair (the first occurrence) while the
    spread view keeps both geometries. -/
theorem c7_shared_pair_distinct_geometries :
    rS1.segment_id = rS2.segment_id ∧
    rS1.application_id = rS2.application_id ∧
    rS1.geometry ≠ rS2.geometry ∧
    gdf_segments_dedup gdfS = [rS1] ∧
    gdf_segments gdfS = Except.ok segsS ∧
    segsS.length = 1 ∧
    gdf_spread gdfS = Except.ok sprdS ∧
    sprdS.length = 2 :=
  ⟨rfl, rfl, by decide, rfl, rfl, rfl, rfl, rfl⟩

/-- C8: get_wards never requests a zone outside 1..8 nor a zone twice; when
    every zone succeeds it requests exactly 1..8 in order; and if any zone's
    fetch or parse fails the enumeration fails, so no ward-list file is
    written. -/
theorem c8_one_request_per_zone_abort (post : Nat → Option String) (loads : String → Option Json) :
    ((get_wards post loads).1).Sublist zoneIds ∧
    ((∀ z, z ∈ zoneIds → isErr (fetchZone post loads z) = false) →
      (get_wards post loads).1 = zoneIds) ∧
    (∀ z, z ∈ zoneIds → isErr (fetchZone post loads z) = true →
      isErr (get_wards post loads).2 = true) := by
  refine ⟨gwGo_sublist post loads zoneIds [], ?_, ?_⟩
  · intro hall
    exact gwGo_all_ok post loads zoneIds [] hall
  · intro z hz hbad
    have herr := gwGo_err_of_mem post loads zoneIds [] z hz hbad
    unfold get_wards
    cases hres : (get_wardsGo post loads zoneIds []).2 with
    | error e => rfl
    | ok rows => rw [hres] at herr; simp [isErr] at herr

/-- C8 witness: under postOk and loadsOk every zone succeeds and exactly
    zones 1..8 are requested; under postBad the first request raises and no
    ward-list file is written. -/
theorem c8_one_request_per_zone_abort_witness :
    (get_wards postOk loadsOk).1 = zoneIds ∧
    isErr (get_wards postBad loadsOk).2 = true :=
  ⟨(c8_one_request_per_zone_abort postOk loadsOk).2.1 (by decide),
   (c8_one_request_per_zone_abort postBad loadsOk).2.2 1 (by decide) (by rfl)⟩

/-- C9: write_to_csv requires a non-empty row list: for a non-empty list the
    written header is exactly the key list of the first row, the empty list
    raises IndexError, and a ward enumeration in which every zone succeeds
    with zero wards raises instead of writing an empty ward-list file. -/
theorem c9_csv_header_nonempty :
    (∀ (α : Type) (r : List (String × α)) (rest : List (List (String × α))),
      write_to_csv (r :: rest) = Except.ok ⟨r.map Prod.fst, r :: rest⟩) ∧
    (∀ (α : Type), isErr (write_to_csv ([] : List (List (String × α)))) = true) ∧
    (∀ (post : Nat → Option String) (loads : String → Option Json),
      (∀ z, z ∈ zoneIds → isOkEmpty (fetchZone post loads z) = true) →
      isErr (get_wards post loads).2 = true) := by
  refine ⟨fun α r rest => rfl, fun α => rfl, ?_⟩
  intro post loads hall
  have hgo := gwGo_all_empty post loads zoneIds [] hall
  unfold get_wards
  rw [hgo]
  rfl

/-- C9 witness: a singleton ward list yields the header zone_id, and the
    all-empty enumeration under loadsEmpty raises. -/
theorem c9_csv_header_nonempty_witness :
    write_to_csv [[("zone_id", Json.str "1")]] =
      Except.ok ⟨["zone_id"], [[("zone_id", Json.str "1")]]⟩ ∧
    isErr (get_wards postOk loadsEmpty).2 = true :=
  ⟨c9_csv_header_nonempty.1 Json [("zone_id", Json.str "1")] [],
   c9_csv_header_nonempty.2.2 postOk loadsEmpty (by decide)⟩

/-- C10: once a file's inner envelope has parsed to a row list, a row whose
    processing raises (missing property key or unparseable coordinate field)
    aborts the whole collector run, so the consolidated feature-collection
    file, serialized only after all files are processed, is never written. -/
theorem c10_row_failure_aborts (loads : String → Option Json) (files : List (String × String))
    (n content : String) (rows : List Json) (row : Json)
    (hmem : (n, content) ∈ files) (hrows : innerRows loads content = some rows)
    (hrow : row ∈ rows) (hbad : isErr (processRow loads row) = true) :
    isErr (create_behemoth_geojson loads files).2 = true := by
  have h1 : isErr (mapME (processRow loads) rows) = true :=
    mapME_isErr_of_mem (processRow loads) rows row hrow hbad
  have h2 : isErr (processFile loads content) = true :=
    (processFile_isErr_rows loads content rows hrows).trans h1
  exact cbGo_err_of_mem loads files n content hmem h2

/-- C10 witness: the single file of filesW10 parses fully but carries a row
    missing the StreetName key, and the collector run aborts. -/
theorem c10_row_failure_aborts_witness :
    isErr (create_behemoth_geojson loadsW10 filesW10).2 = true :=
  c10_row_failure_aborts loadsW10 filesW10 "data_raw/9.txt" "fbody" [badRowW10] badRowW10
    (List.Mem.head _) (by rfl) (List.Mem.head _) (by rfl)

end BbmpOfc
